import Mathlib

/-!
Verification development for a translation-dispatch pipeline consisting of
three Python modules: a tenant configuration store (config_store.py), a set
of translation providers with a chain builder and dispatcher (providers.py),
and an orchestrating pipeline with admission heuristics (app.py).

Python strings are modelled as lists of characters (one entry per code
point).  Python dicts are modelled as association lists in insertion order,
with first-match lookup and replace-in-place insertion, mirroring CPython
dict semantics.  Character classification functions (str.isalpha and
friends) are modelled exactly on the ASCII range; classification of
code points above 127 is supplied by an explicit oracle parameter where the
source consults it.
-/

namespace Clanker

/-- Python str, as a list of code points. -/
abbrev PyStr := List Char

/-- Coerce a Lean string literal to the Python string model. -/
def pys (s : String) : PyStr := s.data

/-! ### Python dict model (association list, insertion order) -/

/-- Dict lookup: first matching key wins (keys are unique in a real dict). -/
def pget? {α : Type} : List (PyStr × α) → PyStr → Option α
  | [], _ => none
  | kv :: rest, key => if kv.1 = key then some kv.2 else pget? rest key

/-- Dict assignment d[k] = v: replace the value in place if the key is
present, otherwise append the binding at the end. -/
def pinsert {α : Type} : List (PyStr × α) → PyStr → α → List (PyStr × α)
  | [], k, v => [(k, v)]
  | kv :: rest, k, v =>
    if kv.1 = k then (k, v) :: rest else kv :: pinsert rest k v

/-- Python dict.update(other): assign every binding of other into d. -/
def pyUpdate {α : Type} (d other : List (PyStr × α)) : List (PyStr × α) :=
  other.foldl (fun acc kv => pinsert acc kv.1 kv.2) d

/-- The keys of a dict, in order. -/
def pkeys {α : Type} (d : List (PyStr × α)) : List PyStr := d.map (·.1)

/-- Left-biased choice on options, mirroring value-or-default reads. -/
def oElse {α : Type} (a b : Option α) : Option α :=
  match a with
  | some v => some v
  | none => b

theorem pget?_pinsert_self {α : Type} (d : List (PyStr × α)) (k : PyStr) (v : α) :
    pget? (pinsert d k v) k = some v := by
  induction d with
  | nil => simp [pinsert, pget?]
  | cons kv rest ih =>
    by_cases h : kv.1 = k
    · simp [pinsert, h, pget?]
    · simp [pinsert, h, pget?, ih]

theorem pget?_pinsert_ne {α : Type} (d : List (PyStr × α)) (k k' : PyStr) (v : α)
    (h : k' ≠ k) : pget? (pinsert d k v) k' = pget? d k' := by
  have h' : k ≠ k' := Ne.symm h
  induction d with
  | nil => simp [pinsert, pget?, h']
  | cons kv rest ih =>
    by_cases h0 : kv.1 = k
    · have h2 : kv.1 ≠ k' := h0 ▸ h'
      simp [pinsert, h0, pget?, h', h2]
    · by_cases h1 : kv.1 = k'
      · simp [pinsert, h0, pget?, h1, h]
      · simp [pinsert, h0, pget?, h1, ih]

theorem pget?_eq_none_of_not_mem {α : Type} (d : List (PyStr × α)) (k : PyStr)
    (h : k ∉ pkeys d) : pget? d k = none := by
  induction d with
  | nil => rfl
  | cons kv rest ih =>
    simp only [pkeys, List.map_cons, List.mem_cons] at h
    push_neg at h
    have h1 : kv.1 ≠ k := Ne.symm h.1
    simp only [pget?, if_neg h1]
    exact ih h.2

theorem mem_pinsert {α : Type} {d : List (PyStr × α)} {k : PyStr} {v : α}
    {kv : PyStr × α} (h : kv ∈ pinsert d k v) : kv = (k, v) ∨ kv ∈ d := by
  induction d with
  | nil => simpa [pinsert] using h
  | cons kv0 rest ih =>
    by_cases h0 : kv0.1 = k
    · simp only [pinsert, if_pos h0, List.mem_cons] at h
      rcases h with h | h
      · exact Or.inl h
      · exact Or.inr (List.mem_cons_of_mem _ h)
    · simp only [pinsert, if_neg h0, List.mem_cons] at h
      rcases h with h | h
      · exact Or.inr (by simp [h])
      · rcases ih h with h' | h'
        · exact Or.inl h'
        · exact Or.inr (List.mem_cons_of_mem _ h')

/-- Characterization of lookup after dict.update, for dicts with unique keys
(real Python dicts always have unique keys): a binding in other wins,
otherwise the original binding is kept. -/
theorem pget?_pyUpdate {α : Type} (other : List (PyStr × α)) (d : List (PyStr × α))
    (k : PyStr) (hnd : (pkeys other).Nodup) :
    pget? (pyUpdate d other) k = oElse (pget? other k) (pget? d k) := by
  induction other generalizing d with
  | nil => simp [pyUpdate, pget?, oElse]
  | cons kv rest ih =>
    simp only [pkeys, List.map_cons, List.nodup_cons] at hnd
    have hrec : pget? (pyUpdate (pinsert d kv.1 kv.2) rest) k
        = oElse (pget? rest k) (pget? (pinsert d kv.1 kv.2) k) :=
      ih (pinsert d kv.1 kv.2) hnd.2
    show pget? (pyUpdate (pinsert d kv.1 kv.2) rest) k = _
    rw [hrec]
    by_cases hk : kv.1 = k
    · rw [← hk]
      have hnone : pget? rest kv.1 = none :=
        pget?_eq_none_of_not_mem rest kv.1 hnd.1
      simp [hnone, oElse, pget?, pget?_pinsert_self]
    · have hne : k ≠ kv.1 := Ne.symm hk
      simp [pget?_pinsert_ne d kv.1 k kv.2 hne, pget?, hk, oElse]

/-! ### Python string helpers -/

/-- Whitespace test used by str.strip and regex ws classes (ASCII range). -/
def isWs (c : Char) : Bool := c.isWhitespace

/-- Python str.strip(): drop whitespace from both ends. -/
def pyStrip (l : PyStr) : PyStr :=
  ((l.dropWhile isWs).reverse.dropWhile isWs).reverse

/-- Python str.rstrip with a slash argument, as used on provider base URLs. -/
def rstripSlashes (l : PyStr) : PyStr :=
  (l.reverse.dropWhile (fun c => c = '/')).reverse

/-- Upper-casing of one character (exact on the ASCII range). -/
def pyCharUpper (c : Char) : Char :=
  if 97 ≤ c.toNat ∧ c.toNat ≤ 122 then Char.ofNat (c.toNat - 32) else c

/-- Lower-casing of one character (exact on the ASCII range). -/
def pyCharLower (c : Char) : Char :=
  if 65 ≤ c.toNat ∧ c.toNat ≤ 90 then Char.ofNat (c.toNat + 32) else c

/-- Python str.upper(). -/
def pyUpper (l : PyStr) : PyStr := l.map pyCharUpper

/-- Python str.lower(). -/
def pyLower (l : PyStr) : PyStr := l.map pyCharLower

/-- Decimal digit character for d (d taken mod 10). -/
def decDigit (d : Nat) : Char := Char.ofNat (48 + d % 10)

/-- Decimal rendering worker: structural recursion on a fuel argument that
bounds the number of digit extractions (any fuel at least the digit count
of n minus one gives the true rendering). -/
def natReprAux : Nat → Nat → PyStr
  | 0, n => [decDigit n]
  | fuel + 1, n =>
    if n < 10 then [decDigit n]
    else natReprAux fuel (n / 10) ++ [decDigit (n % 10)]

/-- Decimal rendering of a natural number, as produced by Python str(n). -/
def natRepr (n : Nat) : PyStr := natReprAux n n

theorem toNat_charOfNat {n : Nat} (h : n < 55296) : (Char.ofNat n).toNat = n := by
  have hv : n.isValidChar := Or.inl h
  rw [Char.ofNat, dif_pos hv]
  rfl

theorem pyCharUpper_idem (c : Char) : pyCharUpper (pyCharUpper c) = pyCharUpper c := by
  unfold pyCharUpper
  by_cases h : 97 ≤ c.toNat ∧ c.toNat ≤ 122
  · have hlt : c.toNat - 32 < 55296 := by omega
    rw [if_pos h]
    have ht : (Char.ofNat (c.toNat - 32)).toNat = c.toNat - 32 := toNat_charOfNat hlt
    rw [if_neg (by omega)]
  · rw [if_neg h, if_neg h]

theorem mem_pyStrip {c : Char} {l : PyStr} (h : c ∈ pyStrip l) : c ∈ l := by
  unfold pyStrip at h
  rw [List.mem_reverse] at h
  have h1 := List.dropWhile_subset (l := (l.dropWhile isWs).reverse) isWs h
  rw [List.mem_reverse] at h1
  exact List.dropWhile_subset isWs h1

theorem map_eq_self_of_mem {α : Type} {f : α → α} {l : List α}
    (h : ∀ c ∈ l, f c = c) : l.map f = l := by
  induction l with
  | nil => rfl
  | cons x rest ih =>
    simp only [List.map_cons]
    rw [h x (List.mem_cons_self x rest), ih (fun c hc => h c (List.mem_cons_of_mem _ hc))]

/-- Characters produced by pyUpper are fixed points of pyCharUpper. -/
theorem pyCharUpper_of_mem_pyUpper {c : Char} {l : PyStr} (h : c ∈ pyUpper l) :
    pyCharUpper c = c := by
  unfold pyUpper at h
  rw [List.mem_map] at h
  obtain ⟨x, _, hx⟩ := h
  rw [← hx]
  exact pyCharUpper_idem x

theorem decDigit_toNat_lt (d : Nat) : (decDigit d).toNat < 58 := by
  unfold decDigit
  have h10 : d % 10 < 10 := Nat.mod_lt _ (by omega)
  rw [toNat_charOfNat (by omega)]
  omega

theorem natReprAux_digits {fuel n : Nat} {c : Char} (h : c ∈ natReprAux fuel n) :
    c.toNat < 58 := by
  induction fuel generalizing n with
  | zero =>
    simp only [natReprAux, List.mem_singleton] at h
    rw [h]
    exact decDigit_toNat_lt n
  | succ fuel ih =>
    rw [natReprAux] at h
    by_cases h10 : n < 10
    · rw [if_pos h10] at h
      simp only [List.mem_singleton] at h
      rw [h]
      exact decDigit_toNat_lt n
    · rw [if_neg h10] at h
      rcases List.mem_append.mp h with h | h
      · exact ih h
      · simp only [List.mem_singleton] at h
        rw [h]
        exact decDigit_toNat_lt (n % 10)

theorem natRepr_digits {n : Nat} {c : Char} (h : c ∈ natRepr n) : c.toNat < 58 :=
  natReprAux_digits h

theorem natReprAux_length_small {fuel m : Nat} (h : m < 10) :
    (natReprAux fuel m).length = 1 := by
  cases fuel with
  | zero => rfl
  | succ fuel => rw [natReprAux, if_pos h, List.length_singleton]

theorem natReprAux_length_lt {fuel n : Nat} (h5 : 5 ≤ n) (hf : n ≤ fuel + 1) :
    (natReprAux fuel n).length < n := by
  induction fuel generalizing n with
  | zero =>
    simp only [natReprAux, List.length_singleton]
    omega
  | succ fuel ih =>
    rw [natReprAux]
    by_cases h10 : n < 10
    · rw [if_pos h10]
      simp only [List.length_singleton]
      omega
    · rw [if_neg h10]
      rw [List.length_append, List.length_singleton]
      by_cases h5q : 5 ≤ n / 10
      · have := ih h5q (by omega)
        omega
      · have hq : n / 10 < 10 := by omega
        rw [natReprAux_length_small hq]
        omega

theorem natRepr_length_lt {n : Nat} (h : 5 ≤ n) : (natRepr n).length < n :=
  natReprAux_length_lt h (by omega)

/-! ### config_store.py -/

/-- The secret-bearing settings keys (SENSITIVE_KEYS in config_store.py). -/
def SENSITIVE_KEYS : List PyStr := [pys "deepl_api_key", pys "libre_api_key"]

/-- Masking of a single settings value, as done inside
ConfigStore.masked_settings: a non-empty secret value becomes its first four
characters, an ellipsis, and the decimal length; all other values are copied. -/
def mask_value (k : PyStr) (v : PyStr) : PyStr :=
  if k ∈ SENSITIVE_KEYS ∧ v ≠ [] then v.take 4 ++ '…' :: natRepr v.length
  else v

/-- ConfigStore.masked_settings: rebuild the settings dict with secret values
masked. -/
def masked_settings (st : List (PyStr × PyStr)) : List (PyStr × PyStr) :=
  st.map (fun kv => (kv.1, mask_value kv.1 kv.2))

/-- ConfigStore.update_settings applied to one settings record: assign every
keyword argument whose value is not None; None values are skipped. -/
def update_settings (st : List (PyStr × PyStr)) (kwargs : List (PyStr × Option PyStr)) :
    List (PyStr × PyStr) :=
  kwargs.foldl
    (fun acc kv =>
      match kv.2 with
      | none => acc
      | some v => pinsert acc kv.1 v)
    st

/-- The persisted document: tenant-keyed channel lists, blacklists and
settings (the guilds, blacklist and settings top-level mappings). -/
structure StoreData where
  guilds : List (PyStr × List PyStr)
  blacklist : List (PyStr × List PyStr)
  settings : List (PyStr × List (PyStr × PyStr))

/-- The _DEFAULT document: three empty mappings. -/
def emptyStore : StoreData := ⟨[], [], []⟩

/-- ConfigStore.add_channel: append str(channel_id) to the guild list if it
is not already present, creating the list when absent. -/
def add_channel (s : StoreData) (guild_id channel_id : Nat) : StoreData :=
  let g := natRepr guild_id
  let arr := (pget? s.guilds g).getD []
  let arr' := if natRepr channel_id ∈ arr then arr else arr ++ [natRepr channel_id]
  { s with guilds := pinsert s.guilds g arr' }

/-- ConfigStore.remove_channel: keep the entries different from
str(channel_id). -/
def remove_channel (s : StoreData) (guild_id channel_id : Nat) : StoreData :=
  let g := natRepr guild_id
  let arr := (pget? s.guilds g).getD []
  { s with guilds := pinsert s.guilds g (arr.filter (fun x => x ≠ natRepr channel_id)) }

/-- ConfigStore.add_blacklist: upper-case and strip the code; do nothing when
the result is empty, otherwise append it to the guild blacklist if not
already present. -/
def add_blacklist (s : StoreData) (guild_id : Nat) (code : PyStr) : StoreData :=
  let c := pyStrip (pyUpper code)
  if c = [] then s
  else
    let g := natRepr guild_id
    let arr := (pget? s.blacklist g).getD []
    let arr' := if c ∈ arr then arr else arr ++ [c]
    { s with blacklist := pinsert s.blacklist g arr' }

/-- ConfigStore.remove_blacklist: upper-case and strip the code, then keep
the entries different from it. -/
def remove_blacklist (s : StoreData) (guild_id : Nat) (code : PyStr) : StoreData :=
  let c := pyStrip (pyUpper code)
  let g := natRepr guild_id
  let arr := (pget? s.blacklist g).getD []
  { s with blacklist := pinsert s.blacklist g (arr.filter (fun x => x ≠ c)) }

/-- The mutating channel and blacklist operations of the store. -/
inductive StoreOp where
  | addChannel (guild_id channel_id : Nat)
  | removeChannel (guild_id channel_id : Nat)
  | addBlacklist (guild_id : Nat) (code : PyStr)
  | removeBlacklist (guild_id : Nat) (code : PyStr)

/-- Apply one store operation. -/
def applyOp (s : StoreData) : StoreOp → StoreData
  | .addChannel g c => add_channel s g c
  | .removeChannel g c => remove_channel s g c
  | .addBlacklist g c => add_blacklist s g c
  | .removeBlacklist g c => remove_blacklist s g c

/-- Run a sequence of operations from the empty document. -/
def runOps (ops : List StoreOp) : StoreData :=
  ops.foldl applyOp emptyStore

/-- The store invariant: channel lists and blacklists hold no duplicates,
and every blacklisted code is a fixed point of upper-casing. -/
def StoreInv (s : StoreData) : Prop :=
  (∀ kv ∈ s.guilds, kv.2.Nodup) ∧
  (∀ kv ∈ s.blacklist, kv.2.Nodup ∧ ∀ code ∈ kv.2, pyUpper code = code)

theorem pget?_mem {α : Type} {d : List (PyStr × α)} {k : PyStr} {v : α}
    (h : pget? d k = some v) : ∃ kv ∈ d, kv.2 = v := by
  induction d with
  | nil => simp [pget?] at h
  | cons kv rest ih =>
    by_cases h0 : kv.1 = k
    · simp only [pget?, if_pos h0, Option.some.injEq] at h
      exact ⟨kv, List.mem_cons_self kv rest, h⟩
    · simp only [pget?, if_neg h0] at h
      obtain ⟨kv', hm, hv⟩ := ih h
      exact ⟨kv', List.mem_cons_of_mem _ hm, hv⟩

theorem prop_pget?_getD {α : Type} {P : α → Prop} {d : List (PyStr × α)} {dflt : α}
    (h : ∀ kv ∈ d, P kv.2) (hd : P dflt) (k : PyStr) : P ((pget? d k).getD dflt) := by
  cases hv : pget? d k with
  | none => simpa using hd
  | some a =>
    obtain ⟨kv, hm, he⟩ := pget?_mem hv
    simpa [← he] using h kv hm

theorem forall_mem_pinsert {α : Type} {P : PyStr × α → Prop} {d : List (PyStr × α)}
    {k : PyStr} {v : α} (h : ∀ kv ∈ d, P kv) (hv : P (k, v)) :
    ∀ kv ∈ pinsert d k v, P kv :=
  fun kv hkv => (mem_pinsert hkv).elim (fun he => he ▸ hv) (h kv)

theorem nodup_append_singleton {α : Type} {x : α} {arr : List α}
    (h : arr.Nodup) (hm : x ∉ arr) : (arr ++ [x]).Nodup := by
  simp [List.nodup_append, h, hm]

/-- The code stored by add_blacklist is a fixed point of upper-casing. -/
theorem pyUpper_stored_code (code : PyStr) :
    pyUpper (pyStrip (pyUpper code)) = pyStrip (pyUpper code) :=
  map_eq_self_of_mem (fun _ hc => pyCharUpper_of_mem_pyUpper (mem_pyStrip hc))

theorem storeInv_applyOp {s : StoreData} (h : StoreInv s) (op : StoreOp) :
    StoreInv (applyOp s op) := by
  obtain ⟨hg, hb⟩ := h
  cases op with
  | addChannel g c =>
    refine ⟨?_, hb⟩
    simp only [applyOp, add_channel]
    refine forall_mem_pinsert hg ?_
    dsimp only
    split
    · exact prop_pget?_getD hg List.nodup_nil _
    · next hm => exact nodup_append_singleton (prop_pget?_getD hg List.nodup_nil _) hm
  | removeChannel g c =>
    refine ⟨?_, hb⟩
    simp only [applyOp, remove_channel]
    refine forall_mem_pinsert hg ?_
    exact (prop_pget?_getD hg List.nodup_nil _).filter _
  | addBlacklist g code =>
    simp only [applyOp, add_blacklist]
    by_cases hc : pyStrip (pyUpper code) = []
    · rw [if_pos hc]
      exact ⟨hg, hb⟩
    · rw [if_neg hc]
      refine ⟨hg, ?_⟩
      refine forall_mem_pinsert hb ?_
      constructor
      · dsimp only
        split
        · exact prop_pget?_getD (fun kv hkv => (hb kv hkv).1) List.nodup_nil _
        · next hm =>
            exact nodup_append_singleton
              (prop_pget?_getD (fun kv hkv => (hb kv hkv).1) List.nodup_nil _) hm
      · have hup : ∀ x ∈ ((pget? s.blacklist (natRepr g)).getD []), pyUpper x = x :=
          prop_pget?_getD (P := fun arr => ∀ x ∈ arr, pyUpper x = x)
            (fun kv hkv => (hb kv hkv).2) (by simp) _
        by_cases hm : pyStrip (pyUpper code) ∈ (pget? s.blacklist (natRepr g)).getD []
        · rw [if_pos hm]
          exact hup
        · rw [if_neg hm]
          intro x hx
          rcases List.mem_append.mp hx with hx | hx
          · exact hup x hx
          · simp only [List.mem_singleton] at hx
            rw [hx]
            exact pyUpper_stored_code code
  | removeBlacklist g code =>
    simp only [applyOp, remove_blacklist]
    refine ⟨hg, ?_⟩
    refine forall_mem_pinsert hb ?_
    constructor
    · exact (prop_pget?_getD (fun kv hkv => (hb kv hkv).1) List.nodup_nil _).filter _
    · intro x hx
      have hup : ∀ x ∈ ((pget? s.blacklist (natRepr g)).getD []), pyUpper x = x :=
        prop_pget?_getD (P := fun arr => ∀ x ∈ arr, pyUpper x = x)
          (fun kv hkv => (hb kv hkv).2) (by simp) _
      exact hup x (List.mem_of_mem_filter hx)

theorem storeInv_foldl {s : StoreData} (h : StoreInv s) (ops : List StoreOp) :
    StoreInv (ops.foldl applyOp s) := by
  induction ops generalizing s with
  | nil => exact h
  | cons op rest ih => exact ih (storeInv_applyOp h op)

/-- Claim C9: starting from the empty store, after any sequence of
add_channel, remove_channel, add_blacklist and remove_blacklist operations,
every tenant channel list and blacklist is free of duplicates and every
stored blacklist code is upper-cased. -/
theorem c9_store_ops_invariant (ops : List StoreOp) : StoreInv (runOps ops) :=
  storeInv_foldl ⟨by simp [emptyStore], by simp [emptyStore]⟩ ops

/-! ### providers.py: provider abstraction, chain builder, dispatcher -/

/-- One translation provider, at the granularity the chain builder and
dispatcher see: a name, the configuration test, and the translate call.
The translate field is the whole method; each concrete variant guards its
body behind the configuration test. -/
structure Provider where
  name : PyStr
  isConfigured : Bool
  translate : PyStr → PyStr → Option (PyStr × PyStr)

/-- The network behavior of the four back-ends, plus whether the DeepL
client construction in DeepLProvider.__init__ succeeds.  Each field gives
the result of the corresponding translate body once past its configuration
guard (absent on network or parse failure). -/
structure NetOracles where
  deeplInitOk : Bool
  deeplNet : PyStr → PyStr → Option (PyStr × PyStr)
  libreNet : PyStr → PyStr → Option (PyStr × PyStr)
  lingvaNet : PyStr → PyStr → Option (PyStr × PyStr)
  simplyNet : PyStr → PyStr → Option (PyStr × PyStr)

/-- DeepLProvider: configured when the stripped key is non-empty and the
client could be constructed; translate returns None unless configured. -/
def mkDeepL (key? : Option PyStr) (o : NetOracles) : Provider :=
  let key := pyStrip (key?.getD [])
  { name := pys "deepl"
    isConfigured := !key.isEmpty && o.deeplInitOk
    translate := fun t l =>
      if !key.isEmpty && o.deeplInitOk then o.deeplNet t l else none }

/-- LibreTranslateProvider: configured when the slash-stripped base URL is
non-empty; translate returns None unless configured. -/
def mkLibre (url? key? : Option PyStr) (o : NetOracles) : Provider :=
  let base := rstripSlashes (url?.getD [])
  { name := pys "libre"
    isConfigured := !base.isEmpty
    translate := fun t l => if !base.isEmpty then o.libreNet t l else none }

/-- LingvaProvider: configured when the slash-stripped base URL is
non-empty; translate returns None unless configured. -/
def mkLingva (url? : Option PyStr) (o : NetOracles) : Provider :=
  let base := rstripSlashes (url?.getD [])
  { name := pys "lingva"
    isConfigured := !base.isEmpty
    translate := fun t l => if !base.isEmpty then o.lingvaNet t l else none }

/-- SimplyTranslateProvider: configured when the slash-stripped base URL is
non-empty; translate returns None unless configured. -/
def mkSimply (url? : Option PyStr) (o : NetOracles) : Provider :=
  let base := rstripSlashes (url?.getD [])
  { name := pys "simply"
    isConfigured := !base.isEmpty
    translate := fun t l => if !base.isEmpty then o.simplyNet t l else none }

/-- The provider name selected by the merged settings:
(cfg.get("provider") or "deepl").lower(). -/
def selectedOf (cfg : List (PyStr × PyStr)) : PyStr :=
  let raw := (pget? cfg (pys "provider")).getD []
  if raw = [] then pys "deepl" else pyLower raw

/-- The all_map dict of build_provider_chain, in insertion order. -/
def allMap (cfg : List (PyStr × PyStr)) (o : NetOracles) : List (PyStr × Provider) :=
  [(pys "deepl", mkDeepL (pget? cfg (pys "deepl_api_key")) o),
   (pys "libre", mkLibre (pget? cfg (pys "libre_url")) (pget? cfg (pys "libre_api_key")) o),
   (pys "lingva", mkLingva (pget? cfg (pys "lingva_url")) o),
   (pys "simply", mkSimply (pget? cfg (pys "simply_url")) o)]

/-- The body of build_provider_chain, with the selected name as an explicit
argument: selected provider first, then the remaining names in dict order;
keep the configured ones; fall back to the bare selected variant when
nothing is configured.  A name outside all_map raises KeyError, modelled as
none. -/
def build_chain_with (selected : PyStr) (cfg : List (PyStr × PyStr)) (o : NetOracles) :
    Option (List Provider) :=
  let order := selected :: (pkeys (allMap cfg o)).filter (fun k => k ≠ selected)
  do
    let provs ← order.mapM (fun n => pget? (allMap cfg o) n)
    let chain := provs.filter (·.isConfigured)
    if chain.isEmpty then
      let sel ← pget? (allMap cfg o) selected
      pure [sel]
    else
      pure chain

/-- build_provider_chain from providers.py. -/
def build_provider_chain (cfg : List (PyStr × PyStr)) (o : NetOracles) :
    Option (List Provider) :=
  build_chain_with (selectedOf cfg) cfg o

/-- translate_via_chain: call each provider in order and accept the first
result whose translated text is non-empty after stripping. -/
def translate_via_chain : List Provider → PyStr → PyStr → Option (PyStr × PyStr × PyStr)
  | [], _, _ => none
  | p :: rest, text, target =>
    match p.translate text target with
    | some (detected, translated) =>
      if (pyStrip translated).isEmpty then translate_via_chain rest text target
      else some (p.name, detected, translated)
    | none => translate_via_chain rest text target

/-- The providers whose translate is invoked during translate_via_chain,
in invocation order: every provider up to and including the accepted one. -/
def chainInvoked : List Provider → PyStr → PyStr → List Provider
  | [], _, _ => []
  | p :: rest, text, target =>
    p ::
      (match p.translate text target with
       | some (_, translated) =>
         if (pyStrip translated).isEmpty then chainInvoked rest text target else []
       | none => chainInvoked rest text target)

/-! ### app.py: classifier heuristics -/

/-- Python str.isalpha for one character: exact on ASCII (the two letter
ranges); for code points above 127 the classification is supplied by the
oracle U. -/
def pyIsAlpha (U : Char → Bool) (c : Char) : Bool :=
  if c.toNat < 128 then
    (65 ≤ c.toNat && c.toNat ≤ 90) || (97 ≤ c.toNat && c.toNat ≤ 122)
  else U c

/-- Skip leading regex whitespace. -/
def skipWs (l : PyStr) : PyStr := l.dropWhile isWs

/-- The R_SCORE pattern: optional ws, one to four digits, optional ws, a
slash, optional ws, one to four digits, optional ws, end. -/
def rScore (l : PyStr) : Bool :=
  let l1 := skipWs l
  let d1 := l1.takeWhile Char.isDigit
  let l2 := l1.dropWhile Char.isDigit
  if d1.length < 1 || 4 < d1.length then false
  else
    match skipWs l2 with
    | '/' :: l3 =>
      let l4 := skipWs l3
      let d2 := l4.takeWhile Char.isDigit
      let l5 := l4.dropWhile Char.isDigit
      decide (1 ≤ d2.length) && decide (d2.length ≤ 4) && (skipWs l5).isEmpty
    | _ => false

/-- The R_NUMBER pattern: optional ws, optional sign, digits, an optional
decimal part, optional ws, an optional percent sign, optional ws, end. -/
def rNumber (l : PyStr) : Bool :=
  let l1 := skipWs l
  let l2 :=
    match l1 with
    | c :: rest => if c = '+' || c = '-' then rest else l1
    | [] => l1
  let d1 := l2.takeWhile Char.isDigit
  let l3 := l2.dropWhile Char.isDigit
  if d1.isEmpty then false
  else
    let l4 :=
      match l3 with
      | c :: rest =>
        if (c = '.' || c = ',') && !(rest.takeWhile Char.isDigit).isEmpty then
          rest.dropWhile Char.isDigit
        else l3
      | [] => l3
    let l5 := skipWs l4
    let l6 :=
      match l5 with
      | '%' :: rest => rest
      | _ => l5
    (skipWs l6).isEmpty

/-- The R_TIME pattern: optional ws, one or two digits, a colon, exactly two
digits, an optional colon-and-two-digits group, optional ws, end. -/
def rTime (l : PyStr) : Bool :=
  let l1 := skipWs l
  let d1 := l1.takeWhile Char.isDigit
  let l2 := l1.dropWhile Char.isDigit
  if d1.length < 1 || 2 < d1.length then false
  else
    match l2 with
    | ':' :: l3 =>
      let d2 := l3.takeWhile Char.isDigit
      let l4 := l3.dropWhile Char.isDigit
      if d2.length ≠ 2 then false
      else
        match l4 with
        | ':' :: l5 =>
          let d3 := l5.takeWhile Char.isDigit
          let l6 := l5.dropWhile Char.isDigit
          decide (d3.length = 2) && (skipWs l6).isEmpty
        | _ => (skipWs l4).isEmpty
    | _ => false

/-- The R_DATE pattern: optional ws, one to four digits, a separator among
slash, dash, dot, one or two digits, the same separator again, one to four
digits, optional ws, end. -/
def rDate (l : PyStr) : Bool :=
  let l1 := skipWs l
  let d1 := l1.takeWhile Char.isDigit
  let l2 := l1.dropWhile Char.isDigit
  if d1.length < 1 || 4 < d1.length then false
  else
    match l2 with
    | sep :: l3 =>
      if sep = '/' || sep = '-' || sep = '.' then
        let d2 := l3.takeWhile Char.isDigit
        let l4 := l3.dropWhile Char.isDigit
        if d2.length < 1 || 2 < d2.length then false
        else
          match l4 with
          | sep2 :: l5 =>
            if sep2 = sep then
              let d3 := l5.takeWhile Char.isDigit
              let l6 := l5.dropWhile Char.isDigit
              decide (1 ≤ d3.length) && decide (d3.length ≤ 4) && (skipWs l6).isEmpty
            else false
          | [] => false
      else false
    | [] => false

/-- Character class of the R_MIXED_NUM pattern. -/
def mixedChar (c : Char) : Bool :=
  c.isDigit || c = '-' || c = '+' || c = '(' || c = ')' || c = '[' || c = ']' || isWs c

/-- The R_MIXED_NUM pattern: optional ws, five or more characters from the
digit-dash-plus-bracket-ws class, optional ws, end.  Because the class
includes whitespace, this is equivalent to: every character is in the class
and the total length is at least five. -/
def rMixed (l : PyStr) : Bool :=
  decide (5 ≤ l.length) && l.all mixedChar

/-- looks_numeric_like from app.py: empty text counts as numeric; text whose
stripped form has no alphabetic character counts as numeric; otherwise any
of the five numeric-shape patterns must fully match the stripped text. -/
def looks_numeric_like (U : Char → Bool) (t : PyStr) : Bool :=
  if t.isEmpty then true
  else if ((pyStrip t).filter (pyIsAlpha U)).length = 0 then true
  else rScore (pyStrip t) || rNumber (pyStrip t) || rTime (pyStrip t)
    || rDate (pyStrip t) || rMixed (pyStrip t)

/-- has_non_ascii_letter from app.py. -/
def has_non_ascii_letter (U : Char → Bool) (s : PyStr) : Bool :=
  s.any (fun c => decide (127 < c.toNat) && pyIsAlpha U c)

/-- Regex word character: a letter (non-ASCII classified by U), an ASCII
digit, or an underscore. -/
def isWordChar (U : Char → Bool) (c : Char) : Bool :=
  pyIsAlpha U c || c.isDigit || c = '_'

/-- Count maximal runs of characters satisfying p; the flag records whether
the previous character was inside a run. -/
def countRuns (p : Char → Bool) : PyStr → Bool → Nat
  | [], _ => 0
  | c :: rest, inRun =>
    if p c then (if inRun then 0 else 1) + countRuns p rest true
    else countRuns p rest false

/-- word_count from app.py: the number of word-character runs. -/
def word_count (U : Char → Bool) (s : PyStr) : Nat :=
  countRuns (isWordChar U) s false

/-- ascii_only from app.py. -/
def ascii_only (s : PyStr) : Bool := s.all (fun c => c.toNat < 128)

/-- Lower-case ASCII letter test, the token class of the stop-word scan. -/
def isLowerAZ (c : Char) : Bool := 97 ≤ c.toNat && c.toNat ≤ 122

/-- All maximal lower-case letter runs of the text, in order (the findall
over the letter-run pattern). -/
def letterRuns (l : PyStr) : List PyStr :=
  match l with
  | [] => []
  | c :: rest =>
    if isLowerAZ c then
      (c :: rest.takeWhile isLowerAZ) :: letterRuns (rest.dropWhile isLowerAZ)
    else letterRuns rest
termination_by l.length
decreasing_by
  · simp only [List.length_cons]
    exact Nat.lt_succ_of_le ((List.dropWhile_sublist isLowerAZ).length_le)
  · simp only [List.length_cons]
    exact Nat.lt_succ_self rest.length

/-- is_roman_hindi from app.py, with the toggle, stop-word list and match
threshold passed explicitly. -/
def is_roman_hindi (skipRH : Bool) (stopwords : List PyStr) (minMatches : Nat)
    (s : PyStr) : Bool :=
  if !skipRH then false
  else
    let t := pyLower s
    if (pyStrip t).isEmpty || !ascii_only t then false
    else
      let toks := letterRuns t
      decide (minMatches ≤ (stopwords.filter (fun w => decide (w ∈ toks))).length)

/-- Collapse worker: the flag records whether the previous character was
whitespace (in which case further whitespace is dropped). -/
def collapseWsAux : PyStr → Bool → PyStr
  | [], _ => []
  | c :: rest, prevWs =>
    if isWs c then
      if prevWs then collapseWsAux rest true
      else ' ' :: collapseWsAux rest true
    else c :: collapseWsAux rest false

/-- Collapse every maximal whitespace run into a single space (the ws-run
substitution inside normalize). -/
def collapseWs (l : PyStr) : PyStr := collapseWsAux l false

/-- normalize from app.py: collapse whitespace, strip, lower-case. -/
def normalize (s : PyStr) : PyStr := pyLower (pyStrip (collapseWs s))

/-- The process-wide configuration surface of app.py that the pipeline
consults (environment-derived constants). -/
structure EnvCfg where
  defaultProvider : PyStr
  deeplKey : PyStr
  libreUrl : PyStr
  libreKey : PyStr
  lingvaUrl : PyStr
  simplyUrl : PyStr
  maxInputChars : Nat
  showSourceLang : Bool
  ignoreNumericLike : Bool
  autoMinWords : Nat
  envBlacklist : List PyStr
  skipRomanHindi : Bool
  stopwords : List PyStr
  minMatches : Nat

/-- skip_reason from app.py: the admission filter, first match wins. -/
def skip_reason (U : Char → Bool) (env : EnvCfg) (text : PyStr) (force : Bool) :
    Option PyStr :=
  if (pyStrip text).isEmpty then some (pys "blank")
  else if env.maxInputChars < text.length then
    some (pys "too_long:" ++ natRepr text.length)
  else if env.ignoreNumericLike && looks_numeric_like U text then
    some (pys "numeric_like")
  else if !force && is_roman_hindi env.skipRomanHindi env.stopwords env.minMatches text then
    some (pys "roman_hindi")
  else if !force && decide (word_count U text < env.autoMinWords)
      && !has_non_ascii_letter U text then
    some (pys "low_signal")
  else none

/-! ### app.py: the pipeline orchestrator -/

/-- The provider_settings dict literal built in translate_pipeline from the
process-wide defaults, in insertion order. -/
def default_provider_settings (env : EnvCfg) : List (PyStr × PyStr) :=
  [(pys "provider", env.defaultProvider),
   (pys "deepl_api_key", env.deeplKey),
   (pys "libre_url", env.libreUrl),
   (pys "libre_api_key", env.libreKey),
   (pys "lingva_url", env.lingvaUrl),
   (pys "simply_url", env.simplyUrl)]

/-- The stored settings record of a tenant (get_settings, read-only view:
an unseen tenant reads as the empty record). -/
def storedSettings (s : StoreData) (g : Nat) : List (PyStr × PyStr) :=
  (pget? s.settings (natRepr g)).getD []

/-- Step 2 of translate_pipeline: defaults updated with the tenant record
when a tenant is present, the defaults alone otherwise. -/
def mergedSettings (env : EnvCfg) (s : StoreData) : Option Nat → List (PyStr × PyStr)
  | some g => pyUpdate (default_provider_settings env) (storedSettings s g)
  | none => default_provider_settings env

/-- list_blacklist from config_store.py: the stored codes, upper-cased. -/
def list_blacklist (s : StoreData) (g : Nat) : List PyStr :=
  ((pget? s.blacklist (natRepr g)).getD []).map pyUpper

/-- guild_blacklist from app.py: the process-wide codes joined with the
tenant codes. -/
def guild_blacklist (env : EnvCfg) (s : StoreData) : Option Nat → List PyStr
  | some g => env.envBlacklist ++ list_blacklist s g
  | none => env.envBlacklist

/-- translate_pipeline from app.py.  The value .error models an exception
escaping the function (an unknown provider name in the chain builder);
.ok none is the absent result; .ok some carries (provider name, upper-cased
detected language, composed text). -/
def translate_pipeline (U : Char → Bool) (env : EnvCfg) (s : StoreData)
    (gid : Option Nat) (o : NetOracles) (text : PyStr) (force applyBl : Bool) :
    Except Unit (Option (PyStr × PyStr × PyStr)) :=
  match skip_reason U env text force with
  | some _ => .ok none
  | none =>
    match build_provider_chain (mergedSettings env s gid) o with
    | none => .error ()
    | some chain =>
      match translate_via_chain chain text (pys "EN-US") with
      | none => .ok none
      | some (pname, detected, translated) =>
        if applyBl && !detected.isEmpty
            && decide (pyUpper detected ∈ guild_blacklist env s gid) then .ok none
        else if (pys "EN").isPrefixOf (pyUpper detected) then .ok none
        else if normalize translated = normalize text then .ok none
        else
          let header :=
            if env.showSourceLang && !detected.isEmpty then
              pys "Translated from " ++ pyUpper detected ++ pys " via "
                ++ pname ++ pys ":\n"
            else []
          .ok (some (pname, pyUpper detected, header ++ translated))

/-! ### Chain builder characterization -/

/-- The four variant names in the fixed dict order of all_map. -/
def canonicalNames : List PyStr :=
  [pys "deepl", pys "libre", pys "lingva", pys "simply"]

/-- Characterization of build_chain_with for a selected name that is one of
the four known names: there is a priority list of variants, named by the
selected name followed by the remaining canonical names, containing the
variant of every all_map entry, and the built chain is the configured
sublist of the priority list, or the selected variant alone when that
sublist is empty. -/
theorem ite_push_some {α : Type} (c : Prop) [Decidable c] (a b : α) :
    (if c then some a else some b) = some (if c then a else b) := by
  split <;> rfl

theorem build_chain_char (selected : PyStr) (cfg : List (PyStr × PyStr))
    (o : NetOracles) (hv : selected ∈ pkeys (allMap cfg o)) :
    ∃ priority : List Provider,
      priority.map (·.name)
          = selected :: canonicalNames.filter (fun k => k ≠ selected) ∧
      (priority.map (·.name)).Perm canonicalNames ∧
      (priority.map (·.name)).Nodup ∧
      (∀ kv ∈ allMap cfg o, kv.2 ∈ priority) ∧
      build_chain_with selected cfg o =
        some (if (priority.filter (·.isConfigured)).isEmpty
              then priority.take 1
              else priority.filter (·.isConfigured)) := by
  have hv' : selected = pys "deepl" ∨ selected = pys "libre"
      ∨ selected = pys "lingva" ∨ selected = pys "simply" := by
    simpa [allMap, pkeys] using hv
  rcases hv' with h | h | h | h <;> subst h
  · have hnames : List.map (fun x => x.name)
        [mkDeepL (pget? cfg (pys "deepl_api_key")) o,
             mkLibre (pget? cfg (pys "libre_url")) (pget? cfg (pys "libre_api_key")) o,
             mkLingva (pget? cfg (pys "lingva_url")) o,
             mkSimply (pget? cfg (pys "simply_url")) o]
        = [pys "deepl", pys "libre", pys "lingva", pys "simply"] := rfl
    refine ⟨[mkDeepL (pget? cfg (pys "deepl_api_key")) o,
             mkLibre (pget? cfg (pys "libre_url")) (pget? cfg (pys "libre_api_key")) o,
             mkLingva (pget? cfg (pys "lingva_url")) o,
             mkSimply (pget? cfg (pys "simply_url")) o], ?_, ?_, ?_, ?_, ?_⟩
    · rw [hnames]
      decide
    · rw [hnames]
      decide
    · rw [hnames]
      decide
    · intro kv hkv
      simp only [allMap, List.mem_cons, List.not_mem_nil, or_false] at hkv
      rcases hkv with h | h | h | h <;> subst h <;> simp
    · rw [← ite_push_some]
      rfl
  · have hnames : List.map (fun x => x.name)
        [mkLibre (pget? cfg (pys "libre_url")) (pget? cfg (pys "libre_api_key")) o,
             mkDeepL (pget? cfg (pys "deepl_api_key")) o,
             mkLingva (pget? cfg (pys "lingva_url")) o,
             mkSimply (pget? cfg (pys "simply_url")) o]
        = [pys "libre", pys "deepl", pys "lingva", pys "simply"] := rfl
    refine ⟨[mkLibre (pget? cfg (pys "libre_url")) (pget? cfg (pys "libre_api_key")) o,
             mkDeepL (pget? cfg (pys "deepl_api_key")) o,
             mkLingva (pget? cfg (pys "lingva_url")) o,
             mkSimply (pget? cfg (pys "simply_url")) o], ?_, ?_, ?_, ?_, ?_⟩
    · rw [hnames]
      decide
    · rw [hnames]
      decide
    · rw [hnames]
      decide
    · intro kv hkv
      simp only [allMap, List.mem_cons, List.not_mem_nil, or_false] at hkv
      rcases hkv with h | h | h | h <;> subst h <;> simp
    · rw [← ite_push_some]
      rfl
  · have hnames : List.map (fun x => x.name)
        [mkLingva (pget? cfg (pys "lingva_url")) o,
             mkDeepL (pget? cfg (pys "deepl_api_key")) o,
             mkLibre (pget? cfg (pys "libre_url")) (pget? cfg (pys "libre_api_key")) o,
             mkSimply (pget? cfg (pys "simply_url")) o]
        = [pys "lingva", pys "deepl", pys "libre", pys "simply"] := rfl
    refine ⟨[mkLingva (pget? cfg (pys "lingva_url")) o,
             mkDeepL (pget? cfg (pys "deepl_api_key")) o,
             mkLibre (pget? cfg (pys "libre_url")) (pget? cfg (pys "libre_api_key")) o,
             mkSimply (pget? cfg (pys "simply_url")) o], ?_, ?_, ?_, ?_, ?_⟩
    · rw [hnames]
      decide
    · rw [hnames]
      decide
    · rw [hnames]
      decide
    · intro kv hkv
      simp only [allMap, List.mem_cons, List.not_mem_nil, or_false] at hkv
      rcases hkv with h | h | h | h <;> subst h <;> simp
    · rw [← ite_push_some]
      rfl
  · have hnames : List.map (fun x => x.name)
        [mkSimply (pget? cfg (pys "simply_url")) o,
             mkDeepL (pget? cfg (pys "deepl_api_key")) o,
             mkLibre (pget? cfg (pys "libre_url")) (pget? cfg (pys "libre_api_key")) o,
             mkLingva (pget? cfg (pys "lingva_url")) o]
        = [pys "simply", pys "deepl", pys "libre", pys "lingva"] := rfl
    refine ⟨[mkSimply (pget? cfg (pys "simply_url")) o,
             mkDeepL (pget? cfg (pys "deepl_api_key")) o,
             mkLibre (pget? cfg (pys "libre_url")) (pget? cfg (pys "libre_api_key")) o,
             mkLingva (pget? cfg (pys "lingva_url")) o], ?_, ?_, ?_, ?_, ?_⟩
    · rw [hnames]
      decide
    · rw [hnames]
      decide
    · rw [hnames]
      decide
    · intro kv hkv
      simp only [allMap, List.mem_cons, List.not_mem_nil, or_false] at hkv
      rcases hkv with h | h | h | h <;> subst h <;> simp
    · rw [← ite_push_some]
      rfl

/-! ### Dispatcher theorems -/

/-- A provider succeeds on a request when its translate returns a result
whose translated text is non-empty after stripping. -/
def chainSuccess (p : Provider) (text target : PyStr) : Prop :=
  ∃ d t, p.translate text target = some (d, t) ∧ (pyStrip t).isEmpty = false

theorem mem_chainInvoked {p : Provider} {chain : List Provider} {text target : PyStr}
    (h : p ∈ chainInvoked chain text target) : p ∈ chain := by
  induction chain with
  | nil => simpa [chainInvoked] using h
  | cons q rest ih =>
    simp only [chainInvoked, List.mem_cons] at h
    rcases h with h | h
    · exact h ▸ List.mem_cons_self q rest
    · refine List.mem_cons_of_mem q ?_
      rcases hres : q.translate text target with _ | dt
      · rw [hres] at h
        exact ih h
      · obtain ⟨d0, t0⟩ := dt
        rw [hres] at h
        rcases hempty : (pyStrip t0).isEmpty with _ | _
        · rw [show (p ∈ (if (pyStrip t0).isEmpty = true
              then chainInvoked rest text target else [])) = _ from rfl, hempty] at h
          simp at h
        · rw [show (p ∈ (if (pyStrip t0).isEmpty = true
              then chainInvoked rest text target else [])) = _ from rfl, hempty] at h
          exact ih (by simpa using h)

/-- Claim C3: translate_via_chain invokes the providers sequentially in
chain order; the first result whose translated text is non-empty after
stripping is returned with that provider name and detected language; when
every provider yields no result or a stripped-empty translation the
dispatcher returns none, having invoked the whole chain. -/
theorem c3_dispatch_first_success (chain : List Provider) (text target : PyStr) :
    (∀ name detected translated,
        translate_via_chain chain text target = some (name, detected, translated) →
        ∃ pre p post, chain = pre ++ p :: post ∧
          chainInvoked chain text target = pre ++ [p] ∧
          (∀ q ∈ pre, ¬ chainSuccess q text target) ∧
          p.translate text target = some (detected, translated) ∧
          (pyStrip translated).isEmpty = false ∧ name = p.name) ∧
    (translate_via_chain chain text target = none →
        (∀ p ∈ chain, ¬ chainSuccess p text target) ∧
        chainInvoked chain text target = chain) := by
  induction chain with
  | nil =>
    constructor
    · intro n d t h
      simp [translate_via_chain] at h
    · intro _
      exact ⟨by simp, rfl⟩
  | cons p rest ih =>
    have hfail_succ : ∀ d0 t0, p.translate text target = some (d0, t0) →
        (pyStrip t0).isEmpty = true → ¬ chainSuccess p text target := by
      rintro d0 t0 hres hempty ⟨d', t', he, hne⟩
      rw [hres] at he
      injection he with he
      injection he with he1 he2
      rw [← he2, hempty] at hne
      exact Bool.true_eq_false.mp hne
    have hnone_succ : p.translate text target = none → ¬ chainSuccess p text target := by
      rintro hres ⟨d', t', he, _⟩
      rw [hres] at he
      exact Option.noConfusion he
    constructor
    · intro n d t h
      rcases hres : p.translate text target with _ | dt
      · simp only [translate_via_chain, hres] at h
        obtain ⟨pre, p', post, hch, hinv, hpre, htr, hemp, hname⟩ := (ih.1) n d t h
        refine ⟨p :: pre, p', post, by rw [hch]; rfl, ?_, ?_, htr, hemp, hname⟩
        · simp only [chainInvoked, hres, hinv]
          rfl
        · intro q hq
          rcases List.mem_cons.mp hq with rfl | hq
          · exact hnone_succ hres
          · exact hpre q hq
      · obtain ⟨d0, t0⟩ := dt
        rcases hempty : (pyStrip t0).isEmpty with _ | _
        · simp only [translate_via_chain, hres, hempty, Bool.false_eq_true,
            if_false, Option.some.injEq] at h
          obtain ⟨h1, h2, h3⟩ : p.name = n ∧ d0 = d ∧ t0 = t := by
            refine ⟨congrArg Prod.fst h, ?_, ?_⟩
            · exact congrArg Prod.fst (congrArg Prod.snd h)
            · exact congrArg Prod.snd (congrArg Prod.snd h)
          refine ⟨[], p, rest, rfl, ?_, by simp, ?_, ?_, h1.symm⟩
          · simp only [chainInvoked, hres, hempty, Bool.false_eq_true, if_false]
            rfl
          · rw [hres, h2, h3]
          · rw [← h3]
            exact hempty
        · simp only [translate_via_chain, hres, hempty, if_true] at h
          obtain ⟨pre, p', post, hch, hinv, hpre, htr, hemp, hname⟩ := (ih.1) n d t h
          refine ⟨p :: pre, p', post, by rw [hch]; rfl, ?_, ?_, htr, hemp, hname⟩
          · simp only [chainInvoked, hres, hempty, if_true, hinv]
            rfl
          · intro q hq
            rcases List.mem_cons.mp hq with rfl | hq
            · exact hfail_succ d0 t0 hres hempty
            · exact hpre q hq
    · intro h
      rcases hres : p.translate text target with _ | dt
      · simp only [translate_via_chain, hres] at h
        obtain ⟨hall, hinv⟩ := (ih.2) h
        refine ⟨?_, ?_⟩
        · intro q hq
          rcases List.mem_cons.mp hq with rfl | hq
          · exact hnone_succ hres
          · exact hall q hq
        · simp only [chainInvoked, hres, hinv]
      · obtain ⟨d0, t0⟩ := dt
        rcases hempty : (pyStrip t0).isEmpty with _ | _
        · simp only [translate_via_chain, hres, hempty, Bool.false_eq_true,
            if_false] at h
          exact Option.noConfusion h
        · simp only [translate_via_chain, hres, hempty, if_true] at h
          obtain ⟨hall, hinv⟩ := (ih.2) h
          refine ⟨?_, ?_⟩
          · intro q hq
            rcases List.mem_cons.mp hq with rfl | hq
            · exact hfail_succ d0 t0 hres hempty
            · exact hall q hq
          · simp only [chainInvoked, hres, hempty, if_true, hinv]

/-! ### Concrete fixtures for witnesses and counterexamples -/

/-- A concrete oracle assignment: the DeepL client constructs, the libre
back-end answers with an empty detected language, the rest fail. -/
def sampleOracles : NetOracles :=
  { deeplInitOk := true
    deeplNet := fun _ _ => none
    libreNet := fun _ _ => some ([], pys "hola")
    lingvaNet := fun _ _ => none
    simplyNet := fun _ _ => none }

/-- The default process-wide configuration of app.py: the literal fallback
value of every recognized environment option, no overrides. -/
def envDefault : EnvCfg :=
  { defaultProvider := pys "deepl"
    deeplKey := []
    libreUrl := []
    libreKey := []
    lingvaUrl := []
    simplyUrl := []
    maxInputChars := 1800
    showSourceLang := true
    ignoreNumericLike := true
    autoMinWords := 2
    envBlacklist := []
    skipRomanHindi := true
    stopwords := [pys "kuch", pys "bhi", pys "apne", pys "apna", pys "apni",
      pys "hisab", pys "mat", pys "karo", pys "kr", pys "karen", pys "hai",
      pys "hota", pys "hoti", pys "hote", pys "ye", pys "yaar", pys "bhai",
      pys "nahi", pys "nahin", pys "kyu", pys "kyun", pys "kya", pys "mera",
      pys "meri", pys "mere", pys "tera", pys "teri", pys "tere", pys "hum",
      pys "ham", pys "tha", pys "thi", pys "the", pys "vo", pys "woh",
      pys "se", pys "ko", pys "mein", pys "me"]
    minMatches := 2 }

/-- A provider that is configured but always fails. -/
def provFaulty : Provider :=
  { name := pys "x", isConfigured := true, translate := fun _ _ => none }

/-- A provider that is configured and answers with a French translation. -/
def provGood : Provider :=
  { name := pys "y", isConfigured := true
    translate := fun _ _ => some (pys "FR", pys "Bonjour traduit") }

/-- Claim C3 witness: over a chain of a faulting provider followed by a
succeeding one, the dispatcher result decomposes as the theorem states. -/
theorem c3_dispatch_witness :
    ∃ pre p post,
      [provFaulty, provGood] = pre ++ p :: post ∧
      chainInvoked [provFaulty, provGood] (pys "bonjour") (pys "EN-US") = pre ++ [p] ∧
      (∀ q ∈ pre, ¬ chainSuccess q (pys "bonjour") (pys "EN-US")) ∧
      p.translate (pys "bonjour") (pys "EN-US")
          = some (pys "FR", pys "Bonjour traduit") ∧
      (pyStrip (pys "Bonjour traduit")).isEmpty = false ∧ pys "y" = p.name :=
  (c3_dispatch_first_success [provFaulty, provGood] (pys "bonjour") (pys "EN-US")).1
    (pys "y") (pys "FR") (pys "Bonjour traduit") rfl

/-! ### Chain builder theorems -/

theorem build_chain_with_none (selected : PyStr) (cfg : List (PyStr × PyStr))
    (o : NetOracles) (hv : selected ∉ pkeys (allMap cfg o)) :
    build_chain_with selected cfg o = none := by
  have h0 : pget? (allMap cfg o) selected = none := pget?_eq_none_of_not_mem _ _ hv
  simp [build_chain_with, List.mapM, List.mapM.loop, h0]

/-- Claim C4: for merged settings whose selected provider name resolves to
one of the four known names, build_provider_chain constructs the four
variants, orders them with the selected name first followed by the other
canonical names without duplicates, keeps exactly the configured ones in
that order, and falls back to the single-element list of the (unconfigured)
selected variant when nothing is configured. -/
theorem c4_build_chain_structure (cfg : List (PyStr × PyStr)) (o : NetOracles)
    (hv : selectedOf cfg ∈ canonicalNames) :
    ∃ priority : List Provider,
      priority.map (·.name)
          = selectedOf cfg :: canonicalNames.filter (fun k => k ≠ selectedOf cfg) ∧
      (priority.map (·.name)).Perm canonicalNames ∧
      (priority.map (·.name)).Nodup ∧
      (∀ kv ∈ allMap cfg o, kv.2 ∈ priority) ∧
      build_provider_chain cfg o =
        some (if (priority.filter (·.isConfigured)).isEmpty
              then priority.take 1
              else priority.filter (·.isConfigured)) :=
  build_chain_char (selectedOf cfg) cfg o hv

/-- A concrete settings record selecting the libre provider with a base URL
set. -/
def cfgLibre : List (PyStr × PyStr) :=
  [(pys "provider", pys "libre"), (pys "libre_url", pys "http://x")]

/-- Claim C4 witness: the chain structure theorem applied to a concrete
record that selects the libre provider. -/
theorem c4_build_chain_witness :
    ∃ priority : List Provider,
      priority.map (·.name)
          = selectedOf cfgLibre :: canonicalNames.filter (fun k => k ≠ selectedOf cfgLibre) ∧
      (priority.map (·.name)).Perm canonicalNames ∧
      (priority.map (·.name)).Nodup ∧
      (∀ kv ∈ allMap cfgLibre sampleOracles, kv.2 ∈ priority) ∧
      build_provider_chain cfgLibre sampleOracles =
        some (if (priority.filter (·.isConfigured)).isEmpty
              then priority.take 1
              else priority.filter (·.isConfigured)) :=
  c4_build_chain_structure cfgLibre sampleOracles (by decide)

/-- Claim C5 (amended): whenever at least one of the four variants built
from the merged settings is configured, every provider whose translate is
invoked by a dispatch over the built chain is configured.  (The unamended
claim fails on the all-unconfigured fallback chain.) -/
theorem c5_invoked_configured (cfg : List (PyStr × PyStr)) (o : NetOracles)
    (chain : List Provider) (text target : PyStr)
    (hb : build_provider_chain cfg o = some chain)
    (hc : ∃ kv ∈ allMap cfg o, kv.2.isConfigured = true) :
    ∀ p ∈ chainInvoked chain text target, p.isConfigured = true := by
  by_cases hv : selectedOf cfg ∈ pkeys (allMap cfg o)
  · obtain ⟨priority, hnames, hperm, hnodup, hall, heq⟩ :=
      build_chain_char (selectedOf cfg) cfg o hv
    have hb' : some chain
        = some (if (priority.filter (·.isConfigured)).isEmpty
                then priority.take 1 else priority.filter (·.isConfigured)) :=
      hb.symm.trans heq
    have hchain := Option.some.inj hb'
    obtain ⟨kv, hkv, hconf⟩ := hc
    have hne : (priority.filter (·.isConfigured)).isEmpty = false := by
      rcases he : (priority.filter (·.isConfigured)).isEmpty with _ | _
      · exact he
      · exfalso
        have hm : kv.2 ∈ priority.filter (·.isConfigured) :=
          List.mem_filter.mpr ⟨hall kv hkv, hconf⟩
        rw [List.isEmpty_iff] at he
        rw [he] at hm
        exact absurd hm (List.not_mem_nil _)
    rw [hne] at hchain
    simp only [Bool.false_eq_true, if_false] at hchain
    intro p hp
    have hmem := mem_chainInvoked hp
    rw [hchain] at hmem
    exact (List.mem_filter.mp hmem).2
  · have : build_provider_chain cfg o = none := build_chain_with_none _ cfg o hv
    rw [this] at hb
    exact Option.noConfusion hb

/-- Claim C5 counterexample: from the default merged settings, where no
variant is configured, the built chain is the single unconfigured selected
variant and a dispatch invokes its translate. -/
theorem c5_counterexample :
    ∃ chain,
      build_provider_chain (default_provider_settings envDefault) sampleOracles
          = some chain ∧
      ∃ p ∈ chainInvoked chain (pys "hola amigo") (pys "EN-US"),
        p.isConfigured = false := by
  refine ⟨[mkDeepL (some []) sampleOracles], rfl,
    mkDeepL (some []) sampleOracles, ?_, rfl⟩
  exact List.mem_cons_self _ _

/-- Claim C5 witness: the amended statement applied to the concrete libre
record, where the libre variant is configured; dispatch invokes only
configured providers. -/
theorem c5_invoked_configured_witness :
    (chainInvoked ((build_provider_chain cfgLibre sampleOracles).getD [])
        (pys "hola amigo") (pys "EN-US")).all (·.isConfigured) = true := by
  rw [List.all_eq_true]
  intro p hp
  exact c5_invoked_configured cfgLibre sampleOracles _ (pys "hola amigo")
    (pys "EN-US") rfl
    ⟨(pys "libre", mkLibre (some (pys "http://x")) none sampleOracles),
      List.mem_cons_of_mem _ (List.mem_cons_self _ _), rfl⟩ p hp

/-! ### Settings merge theorems -/

/-- Claim C1 (amended): the settings merge of translate_pipeline is a
shallow field-by-field dict update in which a field present in the stored
tenant record wins even when its value is the empty string; a field absent
from the tenant record keeps the process-wide default; with no tenant the
defaults are used unchanged. -/
theorem c1_merge_shallow (env : EnvCfg) (s : StoreData) (g : Nat) (k : PyStr)
    (hnd : (pkeys (storedSettings s g)).Nodup) :
    pget? (mergedSettings env s (some g)) k
        = oElse (pget? (storedSettings s g) k)
            (pget? (default_provider_settings env) k)
    ∧ mergedSettings env s none = default_provider_settings env :=
  ⟨pget?_pyUpdate _ _ _ hnd, rfl⟩

/-- Process-wide defaults with a non-empty DeepL key. -/
def envK : EnvCfg := { envDefault with deeplKey := pys "K" }

/-- A store holding, for tenant 1, a settings record whose DeepL key is
present but empty. -/
def storeK : StoreData :=
  ⟨[], [], [(natRepr 1, [(pys "deepl_api_key", [])])]⟩

/-- Claim C1 counterexample: a stored tenant value that is present but
empty overrides the non-empty process-wide default, whereas the claim says
the merged settings carry the default for every empty tenant field. -/
theorem c1_counterexample :
    pget? (storedSettings storeK 1) (pys "deepl_api_key") = some []
    ∧ pget? (default_provider_settings envK) (pys "deepl_api_key") = some (pys "K")
    ∧ pget? (mergedSettings envK storeK (some 1)) (pys "deepl_api_key") = some []
    ∧ some ([] : PyStr) ≠ some (pys "K") :=
  ⟨rfl, rfl, rfl, by decide⟩

/-- Claim C1 witness: the amended merge statement at the concrete store
and defaults. -/
theorem c1_merge_witness :
    pget? (mergedSettings envK storeK (some 1)) (pys "libre_url")
        = oElse (pget? (storedSettings storeK 1) (pys "libre_url"))
            (pget? (default_provider_settings envK) (pys "libre_url"))
    ∧ mergedSettings envK storeK none = default_provider_settings envK :=
  c1_merge_shallow envK storeK 1 (pys "libre_url") (by decide)

/-- The effective value a keyword-argument set supplies for a key: its
value when the key is supplied with a non-null value, nothing otherwise. -/
def kwLookup (kwargs : List (PyStr × Option PyStr)) (k : PyStr) : Option PyStr :=
  match pget? kwargs k with
  | some (some v) => some v
  | _ => none

/-- Claim C7 (amended): update_settings assigns every supplied field whose
value is not null (an empty string is assigned and overwrites), ignores
null fields, and leaves every field that is not supplied with a non-null
value at its prior stored value, so a partial update never erases unrelated
fields. -/
theorem c7_update_settings_fields (st : List (PyStr × PyStr))
    (kwargs : List (PyStr × Option PyStr)) (k : PyStr)
    (hnd : (pkeys kwargs).Nodup) :
    pget? (update_settings st kwargs) k
        = oElse (kwLookup kwargs k) (pget? st k) := by
  induction kwargs generalizing st with
  | nil => simp [update_settings, kwLookup, pget?, oElse]
  | cons kv rest ih =>
    simp only [pkeys, List.map_cons, List.nodup_cons] at hnd
    have hstep : update_settings st (kv :: rest)
        = update_settings
            (match kv.2 with | none => st | some v => pinsert st kv.1 v) rest := rfl
    rw [hstep, ih _ hnd.2]
    by_cases hk : kv.1 = k
    · rw [← hk]
      have hrest : pget? rest kv.1 = none :=
        pget?_eq_none_of_not_mem _ _ (by simpa [pkeys] using hnd.1)
      cases hv : kv.2 with
      | none =>
        simp [kwLookup, pget?, hrest, hv, oElse]
      | some v =>
        simp [kwLookup, pget?, hrest, hv, oElse, pget?_pinsert_self]
    · have hne : k ≠ kv.1 := Ne.symm hk
      cases hv : kv.2 with
      | none =>
        simp [kwLookup, pget?, hk, oElse]
      | some v =>
        simp [kwLookup, pget?, hk, oElse, pget?_pinsert_ne st kv.1 k v hne]

/-- Claim C7 counterexample: a supplied empty-string value is merged and
overwrites the stored value, whereas the claim says only non-empty-valued
supplied fields are merged. -/
theorem c7_counterexample :
    pget? (update_settings [(pys "deepl_api_key", pys "old")]
        [(pys "deepl_api_key", some [])]) (pys "deepl_api_key") = some []
    ∧ some ([] : PyStr) ≠ some (pys "old") :=
  ⟨rfl, by decide⟩

/-- Claim C7 witness: updating the provider field alone leaves the stored
libre URL untouched (the frame example of the spec, with the source field
names). -/
theorem c7_update_witness :
    pget? (update_settings [(pys "provider", pys "deepl"), (pys "libre_url", pys "X")]
        [(pys "provider", some (pys "lingva"))]) (pys "libre_url")
      = oElse (kwLookup [(pys "provider", some (pys "lingva"))] (pys "libre_url"))
          (pget? [(pys "provider", pys "deepl"), (pys "libre_url", pys "X")]
            (pys "libre_url")) :=
  c7_update_settings_fields _ _ _ (by decide)

/-! ### Masking theorems -/

theorem pget?_masked (st : List (PyStr × PyStr)) (k : PyStr) :
    pget? (masked_settings st) k = (pget? st k).map (mask_value k) := by
  induction st with
  | nil => rfl
  | cons kv rest ih =>
    by_cases h : kv.1 = k
    · simp [masked_settings, pget?, h]
    · simp only [masked_settings, List.map_cons, pget?, if_neg h]
      exact ih

/-- A secret of length at least five that does not contain the ellipsis
character never occurs as a contiguous substring of its masked rendering:
any occurrence either covers the ellipsis at index four or fits inside the
decimal length suffix, which is shorter than the secret. -/
theorem mask_value_not_contains {k v : PyStr} (hk : k ∈ SENSITIVE_KEYS)
    (h5 : 5 ≤ v.length) (hne : '…' ∉ v) : ¬ (v <:+: mask_value k v) := by
  intro hinf
  obtain ⟨s, t, hst⟩ := hinf
  have hvne : v ≠ [] := by
    intro h0
    rw [h0] at h5
    simp at h5
  have hmask : mask_value k v = v.take 4 ++ '…' :: natRepr v.length := by
    unfold mask_value
    rw [if_pos ⟨hk, hvne⟩]
  rw [hmask] at hst
  have hlen := congrArg List.length hst
  simp only [List.length_append, List.length_cons, List.length_take] at hlen
  have htk : min 4 v.length = 4 := by omega
  rw [htk] at hlen
  have hd : (natRepr v.length).length < v.length := natRepr_length_lt h5
  by_cases hs : s.length ≤ 4
  · have h4r : (v.take 4 ++ '…' :: natRepr v.length)[4]? = some '…' := by
      rw [List.getElem?_append_right (by rw [List.length_take, htk])]
      rw [List.length_take, htk]
      simp
    rw [← hst] at h4r
    have h1 : 4 < (s ++ v).length := by
      rw [List.length_append]
      omega
    rw [List.getElem?_append_left h1] at h4r
    rw [List.getElem?_append_right hs] at h4r
    exact hne (List.getElem?_mem h4r)
  · omega

/-- Claim C2 (amended): masked_settings rewrites every field through
mask_value; an empty secret stays empty and absent keys stay absent; and
for a secret of length at least five that does not itself contain the
ellipsis character, the masked string never contains the full original
secret.  (A secret of length four or less appears in full inside its masked
rendering, which refutes the original claim.) -/
theorem c2_masked_secret (st : List (PyStr × PyStr)) (k k' v : PyStr) :
    pget? (masked_settings st) k' = (pget? st k').map (mask_value k')
    ∧ mask_value k [] = []
    ∧ (k ∈ SENSITIVE_KEYS → 5 ≤ v.length → '…' ∉ v →
        ¬ (v <:+: mask_value k v)) :=
  ⟨pget?_masked st k', by simp [mask_value],
    fun hk h5 hne => mask_value_not_contains hk h5 hne⟩

/-- Claim C2 counterexample: the four-character secret abcd is contained in
full in its masked rendering abcd…4, whereas the claim says the masked
string never contains the original secret regardless of its length. -/
theorem c2_counterexample :
    mask_value (pys "deepl_api_key") (pys "abcd") = pys "abcd…4"
    ∧ pys "abcd" <:+: mask_value (pys "deepl_api_key") (pys "abcd") :=
  ⟨rfl, ⟨[], pys "…4", rfl⟩⟩

/-- Claim C2 witness: the 18-character secret of the spec example masks to
sk-a…18, and the masked string does not contain the secret. -/
theorem c2_masked_secret_witness :
    mask_value (pys "deepl_api_key") (pys "sk-abcdefghijklmno") = pys "sk-a…18"
    ∧ ¬ (pys "sk-abcdefghijklmno"
          <:+: mask_value (pys "deepl_api_key") (pys "sk-abcdefghijklmno")) :=
  ⟨rfl,
    (c2_masked_secret [] (pys "deepl_api_key") (pys "deepl_api_key")
        (pys "sk-abcdefghijklmno")).2.2
      (by decide) (by decide) (by decide)⟩

/-! ### Classifier theorems -/

/-- ASCII punctuation, by code point range. -/
def isAsciiPunct (c : Char) : Bool :=
  (33 ≤ c.toNat && c.toNat ≤ 47) || (58 ≤ c.toNat && c.toNat ≤ 64) ||
  (91 ≤ c.toNat && c.toNat ≤ 96) || (123 ≤ c.toNat && c.toNat ≤ 126)

/-- The character class of the numeric-like claim: ASCII digits, ASCII
punctuation, and whitespace. -/
def isDigitPunctWs (c : Char) : Bool :=
  (48 ≤ c.toNat && c.toNat ≤ 57) || isAsciiPunct c || isWs c

theorem isWs_char_cases {c : Char} (h : isWs c = true) :
    c = ' ' ∨ c = '\t' ∨ c = '\r' ∨ c = '\n' := by
  by_cases h1 : c = ' '
  · exact Or.inl h1
  · by_cases h2 : c = '\t'
    · exact Or.inr (Or.inl h2)
    · by_cases h3 : c = '\r'
      · exact Or.inr (Or.inr (Or.inl h3))
      · by_cases h4 : c = '\n'
        · exact Or.inr (Or.inr (Or.inr h4))
        · exfalso
          unfold isWs Char.isWhitespace at h
          simp [h1, h2, h3, h4] at h

theorem pyIsAlpha_eq_false_of_classChar (U : Char → Bool) (c : Char)
    (h : isDigitPunctWs c = true) : pyIsAlpha U c = false := by
  by_cases hws : isWs c = true
  · rcases isWs_char_cases hws with h1 | h1 | h1 | h1 <;> rw [h1] <;> rfl
  · simp only [isDigitPunctWs, isAsciiPunct, Bool.or_eq_true, Bool.and_eq_true,
      decide_eq_true_eq, hws, Bool.false_eq_true, or_false] at h
    unfold pyIsAlpha
    rw [if_pos (by omega)]
    simp only [Bool.or_eq_false_iff, Bool.and_eq_false_iff,
      decide_eq_false_iff_not]
    omega

theorem mem_dropWhile_of_mem {p : Char → Bool} {c : Char} {l : PyStr}
    (hm : c ∈ l) (hp : p c = false) : c ∈ l.dropWhile p := by
  induction l with
  | nil => simp at hm
  | cons x rest ih =>
    rcases hx : p x with _ | _
    · rw [List.dropWhile_cons, hx]
      simpa using hm
    · rw [List.dropWhile_cons, hx]
      simp only [if_true]
      rcases List.mem_cons.mp hm with rfl | hm
      · rw [hx] at hp
        exact absurd hp (by simp)
      · exact ih hm

theorem mem_pyStrip_of_mem {c : Char} {l : PyStr} (hm : c ∈ l)
    (hp : isWs c = false) : c ∈ pyStrip l := by
  unfold pyStrip
  rw [List.mem_reverse]
  refine mem_dropWhile_of_mem ?_ hp
  rw [List.mem_reverse]
  exact mem_dropWhile_of_mem hm hp

/-- Claim C6 (amended): for a text made purely of digits, punctuation and
whitespace, containing at least one non-whitespace character, of length at
least five and at most the configured maximum length, skip_reason yields
the numeric-like verdict whenever the numeric filter is enabled, in forced
and unforced mode alike.  (All-whitespace class text yields blank, and
over-long class text yields too_long, refuting the original claim.) -/
theorem c6_numeric_like (U : Char → Bool) (env : EnvCfg) (text : PyStr)
    (force : Bool)
    (hfil : env.ignoreNumericLike = true)
    (hclass : ∀ c ∈ text, isDigitPunctWs c = true)
    (hlen5 : 5 ≤ text.length)
    (hnb : ∃ c ∈ text, isWs c = false)
    (hmax : text.length ≤ env.maxInputChars) :
    skip_reason U env text force = some (pys "numeric_like") := by
  obtain ⟨c0, hc0, hc0w⟩ := hnb
  have hstrip : ¬((pyStrip text).isEmpty = true) := by
    have hmem := mem_pyStrip_of_mem hc0 hc0w
    intro he
    rw [List.isEmpty_iff] at he
    rw [he] at hmem
    exact absurd hmem (List.not_mem_nil _)
  have htne : ¬(text.isEmpty = true) := by
    intro he
    rw [List.isEmpty_iff] at he
    rw [he] at hlen5
    simp at hlen5
  have halpha : ((pyStrip text).filter (pyIsAlpha U)).length = 0 := by
    have hnil : (pyStrip text).filter (pyIsAlpha U) = [] := by
      rw [List.filter_eq_nil_iff]
      intro c hc
      simp [pyIsAlpha_eq_false_of_classChar U c (hclass c (mem_pyStrip hc))]
    rw [hnil]
    rfl
  have hlook : looks_numeric_like U text = true := by
    unfold looks_numeric_like
    rw [if_neg htne, if_pos halpha]
  unfold skip_reason
  rw [if_neg hstrip, if_neg (by omega),
    if_pos (show (env.ignoreNumericLike && looks_numeric_like U text) = true by
      rw [hfil, hlook]; rfl)]

/-- An uninformative classification oracle for characters above ASCII. -/
def U0 : Char → Bool := fun _ => false

set_option maxRecDepth 100000 in
/-- Claim C6 counterexample: under the default configuration with the
numeric filter enabled, the five-space text (pure whitespace, length five)
is classified blank, and a 1801-digit text is classified too_long; neither
yields numeric_like although both are digits-punctuation-whitespace texts
of length at least five. -/
theorem c6_counterexample :
    (∀ c ∈ pys "     ", isDigitPunctWs c = true)
    ∧ (pys "     ").length = 5
    ∧ envDefault.ignoreNumericLike = true
    ∧ skip_reason U0 envDefault (pys "     ") false = some (pys "blank")
    ∧ (∀ c ∈ List.replicate 1801 '1', isDigitPunctWs c = true)
    ∧ (List.replicate 1801 '1').length = 1801
    ∧ skip_reason U0 envDefault (List.replicate 1801 '1') false
        = some (pys "too_long:" ++ natRepr 1801)
    ∧ some (pys "blank") ≠ some (pys "numeric_like")
    ∧ some (pys "too_long:" ++ natRepr 1801) ≠ some (pys "numeric_like") := by
  refine ⟨by decide, by decide, rfl, by decide, ?_, by simp, ?_, by decide, by decide⟩
  · intro c hc
    rw [List.eq_of_mem_replicate hc]
    decide
  · rfl

/-- Claim C6 witness: the digit text 12345 is classified numeric-like under
the default configuration, in forced mode. -/
theorem c6_numeric_like_witness :
    skip_reason U0 envDefault (pys "12345") true = some (pys "numeric_like") :=
  c6_numeric_like U0 envDefault (pys "12345") true rfl (by decide) (by decide)
    ⟨'1', by decide, rfl⟩ (by decide)

/-! ### Pipeline theorems -/

/-- Claim C10: when the dispatcher succeeds but reports an empty detected
language, the pipeline blacklist check and English-prefix check never
abort — for every effective blacklist, force mode and blacklist toggle —
and the composed reply carries no source-language header even when the
header option is enabled: the outcome depends only on the no-change
check. -/
theorem c10_empty_detected (U : Char → Bool) (env : EnvCfg) (s : StoreData)
    (gid : Option Nat) (o : NetOracles) (text : PyStr) (force applyBl : Bool)
    (chain : List Provider) (pname translated : PyStr)
    (hskip : skip_reason U env text force = none)
    (hb : build_provider_chain (mergedSettings env s gid) o = some chain)
    (hdisp : translate_via_chain chain text (pys "EN-US")
        = some (pname, [], translated)) :
    translate_pipeline U env s gid o text force applyBl
      = .ok (if normalize translated = normalize text then none
             else some (pname, [], translated)) := by
  unfold translate_pipeline
  simp only [hskip, hb, hdisp]
  rw [if_neg (by simp)]
  rw [if_neg (by decide)]
  by_cases hc : normalize translated = normalize text
  · rw [if_pos hc, if_pos hc]
  · rw [if_neg hc, if_neg hc]
    simp [pyUpper]

/-- A configuration with the libre back-end as default provider, a base
URL, the source-language header enabled and a non-empty process blacklist. -/
def env10 : EnvCfg :=
  { envDefault with
      defaultProvider := pys "libre"
      libreUrl := pys "http://x"
      envBlacklist := [pys "FR"] }

/-- Claim C10 witness: a dispatch answered by the libre back-end with an
empty detected language passes the non-empty blacklist and the English
check and yields a reply with no header. -/
theorem c10_empty_detected_witness :
    translate_pipeline U0 env10 emptyStore none sampleOracles
        (pys "bonjour tout le monde") true true
      = .ok (some (pys "libre", [], pys "hola")) :=
  (c10_empty_detected U0 env10 emptyStore none sampleOracles
      (pys "bonjour tout le monde") true true _ (pys "libre") (pys "hola")
      (by decide) rfl rfl).trans (by rw [if_neg (by decide)])

/-! ### providers.py: the four translate bodies, with fault points

The fault-capable model of the variant translate methods.  Every exception
point of the Python bodies — the HTTP request, response JSON parsing,
attribute access on a value of the wrong shape, upper-casing a non-string —
is an Except value; every try block of the source appears as a match that
maps the error branch to the documented recovery (empty detected language
for the best-effort detect step, absent result everywhere else). -/

/-- A JSON-like value as returned by response parsing. -/
inductive JVal where
  | jnull
  | jbool (b : Bool)
  | jnum (n : Int)
  | jstr (s : PyStr)
  | jarr (xs : List JVal)
  | jobj (fields : List (PyStr × JVal))

/-- Python truthiness of a JSON value. -/
def jTruthy : JVal → Bool
  | .jnull => false
  | .jbool b => b
  | .jnum n => decide (n ≠ 0)
  | .jstr s => !s.isEmpty
  | .jarr xs => !xs.isEmpty
  | .jobj fs => !fs.isEmpty

/-- Python x or y on JSON values (the value of the first truthy operand;
both operands are already evaluated here, which only matters when the
second would raise, and in every use below the second can raise only when
the first raised earlier). -/
def jOr (a b : JVal) : JVal := if jTruthy a then a else b

/-- dict.get(key) with default None: raises on a non-dict receiver. -/
def jGet (j : JVal) (k : PyStr) : Except Unit JVal :=
  match j with
  | .jobj fs => .ok ((pget? fs k).getD .jnull)
  | _ => .error ()

/-- dict.get(key, default): raises on a non-dict receiver. -/
def jGetD (j : JVal) (k : PyStr) (dflt : JVal) : Except Unit JVal :=
  match j with
  | .jobj fs => .ok ((pget? fs k).getD dflt)
  | _ => .error ()

/-- str.upper() on a JSON value: raises unless it is a string. -/
def jUpper (j : JVal) : Except Unit PyStr :=
  match j with
  | .jstr s => .ok (pyUpper s)
  | _ => .error ()

/-- An HTTP response: status code and the outcome of parsing the body as
JSON (r.json() may raise). -/
structure HResp where
  status : Nat
  body : Except Unit JVal

/-- The result object of the blocking DeepL client call. -/
structure DeeplRes where
  detected : Option PyStr
  text : Option PyStr

/-- target_lang.split("-")[0].lower(), the short code sent to the REST
back-ends. -/
def shortCode (target_lang : PyStr) : PyStr :=
  pyLower (target_lang.takeWhile (fun c => c ≠ '-'))

/-- DeepLProvider.translate: absent without a client; otherwise the
executor call either raises (caught and logged, absent result) or yields a
result whose detected language is upper-cased, with empty-string fallbacks
for missing fields. -/
def deepl_translate (configured : Bool)
    (net : PyStr → PyStr → Except Unit DeeplRes)
    (text target_lang : PyStr) : Except Unit (Option (PyStr × PyStr)) :=
  if !configured then .ok none
  else
    match net text target_lang with
    | .error _ => .ok none
    | .ok r => .ok (some (pyUpper (r.detected.getD []), r.text.getD []))

/-- The two HTTP calls of LibreTranslateProvider.translate. -/
structure LibreNet where
  det : PyStr → Except Unit HResp
  tx : PyStr → PyStr → Except Unit HResp

/-- The best-effort detect phase of LibreTranslateProvider.translate: any
fault, non-200 status, or unexpected shape leaves the detected language
empty and never aborts the translation. -/
def libre_detect (net : LibreNet) (text : PyStr) : PyStr :=
  match net.det text with
  | .error _ => []
  | .ok r =>
    if r.status = 200 then
      match r.body with
      | .error _ => []
      | .ok dj =>
        match dj with
        | .jarr (x :: _) =>
          match jGet x (pys "language") with
          | .error _ => []
          | .ok lang =>
            match jUpper (jOr lang (.jstr [])) with
            | .error _ => []
            | .ok s => s
        | _ => []
    else []

/-- LibreTranslateProvider.translate. -/
def libre_translate (base_url api_key : Option PyStr) (net : LibreNet)
    (text target_lang : PyStr) : Except Unit (Option (PyStr × JVal)) :=
  if (rstripSlashes (base_url.getD [])).isEmpty then .ok none
  else
    let detected := libre_detect net text
    match net.tx text (shortCode target_lang) with
    | .error _ => .ok none
    | .ok r =>
      if r.status ≠ 200 then .ok none
      else
        match r.body with
        | .error _ => .ok none
        | .ok data =>
          match jGetD data (pys "translatedText") (.jstr []) with
          | .error _ => .ok none
          | .ok translated => .ok (some (detected, translated))

/-- LingvaProvider.translate. -/
def lingva_translate (base_url : Option PyStr)
    (net : PyStr → PyStr → Except Unit HResp)
    (text target_lang : PyStr) : Except Unit (Option (PyStr × JVal)) :=
  if (rstripSlashes (base_url.getD [])).isEmpty then .ok none
  else
    match net text (shortCode target_lang) with
    | .error _ => .ok none
    | .ok r =>
      if r.status ≠ 200 then .ok none
      else
        match r.body with
        | .error _ => .ok none
        | .ok data =>
          match jGetD data (pys "translation") (.jstr []) with
          | .error _ => .ok none
          | .ok translated =>
            match jGet data (pys "info") with
            | .error _ => .ok none
            | .ok info0 =>
              match jGet (jOr info0 (.jobj [])) (pys "detectedSource"),
                    jGet (jOr info0 (.jobj [])) (pys "source") with
              | .ok d1, .ok d2 =>
                match jUpper (jOr (jOr d1 d2) (.jstr [])) with
                | .error _ => .ok none
                | .ok detected => .ok (some (detected, translated))
              | _, _ => .ok none

/-- SimplyTranslateProvider.translate. -/
def simply_translate (base_url : Option PyStr)
    (net : PyStr → PyStr → Except Unit HResp)
    (text target_lang : PyStr) : Except Unit (Option (PyStr × JVal)) :=
  if (rstripSlashes (base_url.getD [])).isEmpty then .ok none
  else
    match net text (shortCode target_lang) with
    | .error _ => .ok none
    | .ok r =>
      if r.status ≠ 200 then .ok none
      else
        match r.body with
        | .error _ => .ok none
        | .ok data =>
          match jGet data (pys "translation"), jGet data (pys "result") with
          | .ok t1, .ok t2 =>
            match jGet data (pys "detected"), jGet data (pys "source") with
            | .ok d1, .ok d2 =>
              match jUpper (jOr (jOr d1 d2) (.jstr [])) with
              | .error _ => .ok none
              | .ok detected => .ok (some (detected, jOr (jOr t1 t2) (.jstr [])))
            | _, _ => .ok none
          | _, _ => .ok none

theorem deepl_translate_ok (configured : Bool)
    (dnet : PyStr → PyStr → Except Unit DeeplRes) (text target : PyStr) :
    ∃ v, deepl_translate configured dnet text target = .ok v := by
  rcases hc : configured with _ | _
  · exact ⟨none, by simp [deepl_translate]⟩
  · rcases hnet : dnet text target with e | r
    · exact ⟨none, by simp [deepl_translate, hnet]⟩
    · exact ⟨some (pyUpper (r.detected.getD []), r.text.getD []),
        by simp [deepl_translate, hnet]⟩

theorem libre_translate_ok (burl akey : Option PyStr) (lnet : LibreNet)
    (text target : PyStr) :
    ∃ v, libre_translate burl akey lnet text target = .ok v := by
  unfold libre_translate
  repeat' split
  all_goals exact ⟨_, rfl⟩

theorem lingva_translate_ok (burl : Option PyStr)
    (gnet : PyStr → PyStr → Except Unit HResp) (text target : PyStr) :
    ∃ v, lingva_translate burl gnet text target = .ok v := by
  unfold lingva_translate
  repeat' split
  all_goals exact ⟨_, rfl⟩

theorem simply_translate_ok (burl : Option PyStr)
    (snet : PyStr → PyStr → Except Unit HResp) (text target : PyStr) :
    ∃ v, simply_translate burl snet text target = .ok v := by
  unfold simply_translate
  repeat' split
  all_goals exact ⟨_, rfl⟩

theorem libre_translate_fault (burl akey : Option PyStr) (lnet : LibreNet)
    (text target : PyStr) :
    (lnet.tx text (shortCode target) = .error ()
      → libre_translate burl akey lnet text target = .ok none)
    ∧ (∀ r, lnet.tx text (shortCode target) = .ok r → r.status ≠ 200
      → libre_translate burl akey lnet text target = .ok none)
    ∧ (∀ r, lnet.tx text (shortCode target) = .ok r → r.body = .error ()
      → libre_translate burl akey lnet text target = .ok none) := by
  by_cases hg : (rstripSlashes (burl.getD [])).isEmpty = true
  · exact ⟨fun _ => by simp [libre_translate, hg],
      fun r _ _ => by simp [libre_translate, hg],
      fun r _ _ => by simp [libre_translate, hg]⟩
  · refine ⟨fun hf => ?_, fun r hr hs => ?_, fun r hr hb => ?_⟩
    · simp [libre_translate, hg, hf]
    · simp [libre_translate, hg, hr, hs]
    · simp [libre_translate, hg, hr, hb, ite_self]

theorem lingva_translate_fault (burl : Option PyStr)
    (gnet : PyStr → PyStr → Except Unit HResp) (text target : PyStr) :
    (gnet text (shortCode target) = .error ()
      → lingva_translate burl gnet text target = .ok none)
    ∧ (∀ r, gnet text (shortCode target) = .ok r → r.status ≠ 200
      → lingva_translate burl gnet text target = .ok none)
    ∧ (∀ r, gnet text (shortCode target) = .ok r → r.body = .error ()
      → lingva_translate burl gnet text target = .ok none) := by
  by_cases hg : (rstripSlashes (burl.getD [])).isEmpty = true
  · exact ⟨fun _ => by simp [lingva_translate, hg],
      fun r _ _ => by simp [lingva_translate, hg],
      fun r _ _ => by simp [lingva_translate, hg]⟩
  · refine ⟨fun hf => ?_, fun r hr hs => ?_, fun r hr hb => ?_⟩
    · simp [lingva_translate, hg, hf]
    · simp [lingva_translate, hg, hr, hs]
    · simp [lingva_translate, hg, hr, hb, ite_self]

theorem simply_translate_fault (burl : Option PyStr)
    (snet : PyStr → PyStr → Except Unit HResp) (text target : PyStr) :
    (snet text (shortCode target) = .error ()
      → simply_translate burl snet text target = .ok none)
    ∧ (∀ r, snet text (shortCode target) = .ok r → r.status ≠ 200
      → simply_translate burl snet text target = .ok none)
    ∧ (∀ r, snet text (shortCode target) = .ok r → r.body = .error ()
      → simply_translate burl snet text target = .ok none) := by
  by_cases hg : (rstripSlashes (burl.getD [])).isEmpty = true
  · exact ⟨fun _ => by simp [simply_translate, hg],
      fun r _ _ => by simp [simply_translate, hg],
      fun r _ _ => by simp [simply_translate, hg]⟩
  · refine ⟨fun hf => ?_, fun r hr hs => ?_, fun r hr hb => ?_⟩
    · simp [simply_translate, hg, hf]
    · simp [simply_translate, hg, hr, hs]
    · simp [simply_translate, hg, hr, hb, ite_self]

/-- Claim C8: none of the four translate implementations lets a fault
reach the caller: for every configuration, oracle behavior and input the
call returns a value, and every internal fault — a raised network call, a
non-200 response, an unparsable payload, missing credentials or
configuration — is reported as the absent result. -/
theorem c8_translate_never_raises (configured : Bool)
    (dnet : PyStr → PyStr → Except Unit DeeplRes) (lnet : LibreNet)
    (gnet snet : PyStr → PyStr → Except Unit HResp)
    (burl akey : Option PyStr) (text target : PyStr) :
    ((∃ v, deepl_translate configured dnet text target = .ok v)
      ∧ (configured = false
        → deepl_translate configured dnet text target = .ok none)
      ∧ (dnet text target = .error ()
        → deepl_translate configured dnet text target = .ok none))
    ∧ ((∃ v, libre_translate burl akey lnet text target = .ok v)
      ∧ (lnet.tx text (shortCode target) = .error ()
        → libre_translate burl akey lnet text target = .ok none)
      ∧ (∀ r, lnet.tx text (shortCode target) = .ok r → r.status ≠ 200
        → libre_translate burl akey lnet text target = .ok none)
      ∧ (∀ r, lnet.tx text (shortCode target) = .ok r → r.body = .error ()
        → libre_translate burl akey lnet text target = .ok none))
    ∧ ((∃ v, lingva_translate burl gnet text target = .ok v)
      ∧ (gnet text (shortCode target) = .error ()
        → lingva_translate burl gnet text target = .ok none)
      ∧ (∀ r, gnet text (shortCode target) = .ok r → r.status ≠ 200
        → lingva_translate burl gnet text target = .ok none)
      ∧ (∀ r, gnet text (shortCode target) = .ok r → r.body = .error ()
        → lingva_translate burl gnet text target = .ok none))
    ∧ ((∃ v, simply_translate burl snet text target = .ok v)
      ∧ (snet text (shortCode target) = .error ()
        → simply_translate burl snet text target = .ok none)
      ∧ (∀ r, snet text (shortCode target) = .ok r → r.status ≠ 200
        → simply_translate burl snet text target = .ok none)
      ∧ (∀ r, snet text (shortCode target) = .ok r → r.body = .error ()
        → simply_translate burl snet text target = .ok none)) := by
  refine ⟨⟨deepl_translate_ok configured dnet text target, ?_, ?_⟩,
    ⟨libre_translate_ok burl akey lnet text target,
      (libre_translate_fault burl akey lnet text target).1,
      (libre_translate_fault burl akey lnet text target).2.1,
      (libre_translate_fault burl akey lnet text target).2.2⟩,
    ⟨lingva_translate_ok burl gnet text target,
      (lingva_translate_fault burl gnet text target).1,
      (lingva_translate_fault burl gnet text target).2.1,
      (lingva_translate_fault burl gnet text target).2.2⟩,
    ⟨simply_translate_ok burl snet text target,
      (simply_translate_fault burl snet text target).1,
      (simply_translate_fault burl snet text target).2.1,
      (simply_translate_fault burl snet text target).2.2⟩⟩
  · intro hc
    simp [deepl_translate, hc]
  · intro hf
    rcases hc : configured with _ | _
    · simp [deepl_translate]
    · simp [deepl_translate, hf]

/-- A DeepL oracle whose call always raises. -/
def dnet0 : PyStr → PyStr → Except Unit DeeplRes := fun _ _ => .error ()

/-- Libre oracles whose calls always raise. -/
def lnet0 : LibreNet := ⟨fun _ => .error (), fun _ _ => .error ()⟩

/-- An HTTP oracle whose call always raises. -/
def hnet0 : PyStr → PyStr → Except Unit HResp := fun _ _ => .error ()

/-- Claim C8 witness: with every network call raising, each configured
variant still returns a value, namely the absent result. -/
theorem c8_translate_witness :
    deepl_translate true dnet0 (pys "hola") (pys "EN-US") = .ok none
    ∧ libre_translate (some (pys "http://x")) none lnet0
        (pys "hola") (pys "EN-US") = .ok none
    ∧ lingva_translate (some (pys "http://x")) hnet0
        (pys "hola") (pys "EN-US") = .ok none
    ∧ simply_translate (some (pys "http://x")) hnet0
        (pys "hola") (pys "EN-US") = .ok none :=
  ⟨(c8_translate_never_raises true dnet0 lnet0 hnet0 hnet0
      (some (pys "http://x")) none (pys "hola") (pys "EN-US")).1.2.2 rfl,
   (c8_translate_never_raises true dnet0 lnet0 hnet0 hnet0
      (some (pys "http://x")) none (pys "hola") (pys "EN-US")).2.1.2.1 rfl,
   (c8_translate_never_raises true dnet0 lnet0 hnet0 hnet0
      (some (pys "http://x")) none (pys "hola") (pys "EN-US")).2.2.1.2.1 rfl,
   (c8_translate_never_raises true dnet0 lnet0 hnet0 hnet0
      (some (pys "http://x")) none (pys "hola") (pys "EN-US")).2.2.2.2.1 rfl⟩

end Clanker
